import Mathlib

/-!
Verification of `scrapy/contrib/loader/processor.py`: the Item Loader
processors (`MapCompose`, `Compose`, `Filter`, `Slice`, `TakeFirst`,
`Identity`, `Join`) embedded shallowly in Lean.

Python values are modelled by the inductive type `PyVal`; dictionaries
(contexts of named parameters) by association lists.  Float values are
modelled at integral points only: the module itself never computes with
floats, it only stores them, tests their truthiness and compares them
for (in)equality with other values.
-/

namespace Processor

/-- Model of a dynamically typed Python value, covering the value shapes
the processor module handles: `None`, ints, floats, bools, strings and
sequences. -/
inductive PyVal where
  | none : PyVal
  | int : Int → PyVal
  | float : Int → PyVal
  | bool : Bool → PyVal
  | str : String → PyVal
  | list : List PyVal → PyVal

/-- Python's identity test `v is None`. -/
def PyVal.isNone : PyVal → Bool
  | PyVal.none => true
  | _ => false

/-- Python truthiness (`bool(v)`): `None`, `0`, `0.0`, `False`, `''` and
the empty sequence are falsy, everything else truthy. -/
def pyTruthy : PyVal → Bool
  | PyVal.none => false
  | PyVal.int n => n != 0
  | PyVal.float q => q != 0
  | PyVal.bool b => b
  | PyVal.str s => s != ""
  | PyVal.list xs => !xs.isEmpty

mutual

/-- Python `==` on `PyVal`: numeric types (`int`, `float`, `bool`)
compare by numeric value across types; other types compare structurally
and are unequal across types. -/
def pyEq : PyVal → PyVal → Bool
  | PyVal.none, PyVal.none => true
  | PyVal.int a, PyVal.int b => a == b
  | PyVal.float a, PyVal.float b => a == b
  | PyVal.int a, PyVal.float b => a == b
  | PyVal.float a, PyVal.int b => a == b
  | PyVal.bool a, PyVal.bool b => a == b
  | PyVal.bool a, PyVal.int b => (if a then (1 : Int) else 0) == b
  | PyVal.int a, PyVal.bool b => a == (if b then (1 : Int) else 0)
  | PyVal.bool a, PyVal.float b => (if a then (1 : Int) else 0) == b
  | PyVal.float a, PyVal.bool b => a == (if b then (1 : Int) else 0)
  | PyVal.str s, PyVal.str t => s == t
  | PyVal.list a, PyVal.list b => pyEqList a b
  | _, _ => false

/-- Elementwise Python `==` on sequences. -/
def pyEqList : List PyVal → List PyVal → Bool
  | [], [] => true
  | x :: xs, y :: ys => pyEq x y && pyEqList xs ys
  | _, _ => false

end

/-- The default predicate shared by `Filter` and `TakeFirst`:
`lambda v: v is not None and v != ''`. -/
def default_pred (v : PyVal) : PyVal :=
  PyVal.bool (!v.isNone && !pyEq v (PyVal.str ""))

/-- `Filter`: `__init__(self, function=lambda v: v is not None and v != '')`
stores the predicate; `function=None` is stored as `Option.none`. -/
structure Filter where
  function : Option (PyVal → PyVal)

/-- `Filter()` with the default predicate argument. -/
def Filter.mkDefault : Filter := ⟨some default_pred⟩

/-- `Filter.__call__`: `tuple(filter(self.function, values))`.  Python's
`filter` keeps the elements on which the predicate is truthy; with
`filter(None, values)` it keeps the truthy elements themselves. -/
def Filter.call (f : Filter) (values : List PyVal) : List PyVal :=
  match f.function with
  | some p => values.filter (fun v => pyTruthy (p v))
  | Option.none => values.filter pyTruthy

/-- Clamp one slice bound the way Python sequence slicing does for a
sequence of length `n`: negative indices count from the end, then the
bound is clamped into `[0, n]`. -/
def sliceIndex (n : Nat) (i : Int) : Nat :=
  if i < 0 then ((n : Int) + i).toNat else min i.toNat n

/-- Python list slicing `values[b:e]` with optional bounds and implicit
step 1: `None` bounds mean "from the start" / "to the end". -/
def pySlice (b e : Option Int) (xs : List PyVal) : List PyVal :=
  let n := xs.length
  let bi := match b with
    | Option.none => 0
    | some i => sliceIndex n i
  let ei := match e with
    | Option.none => n
    | some i => sliceIndex n i
  (xs.take ei).drop bi

/-- `Slice`: `__init__(self, begin=None, end=None)` stores the bounds. -/
structure Slice where
  begin_ : Option Int
  end_ : Option Int

/-- `Slice.__call__`: `values[self.begin:self.end]`. -/
def Slice.call (s : Slice) (values : List PyVal) : List PyVal :=
  pySlice s.begin_ s.end_ values

/-- `TakeFirst`: `__init__` stores
`bool if function is None else function`, the default argument being the
same `lambda v: v is not None and v != ''` as `Filter`. -/
structure TakeFirst where
  function : PyVal → PyVal

/-- `TakeFirst(function)` for an explicit predicate argument:
`None` selects element truthiness (`bool`). -/
def TakeFirst.mkP (function : Option (PyVal → PyVal)) : TakeFirst :=
  ⟨match function with
   | Option.none => fun v => PyVal.bool (pyTruthy v)
   | some g => g⟩

/-- `TakeFirst()` with the default predicate argument. -/
def TakeFirst.mkDefault : TakeFirst := ⟨default_pred⟩

/-- `TakeFirst.__call__`: return the first element on which the stored
predicate is truthy; falling off the loop returns Python's implicit
`None`. -/
def TakeFirst.call (t : TakeFirst) : List PyVal → PyVal
  | [] => PyVal.none
  | v :: vs => if pyTruthy (t.function v) then v else TakeFirst.call t vs

/-- `Identity.__call__`: return `values` unchanged. -/
def Identity.call (values : List PyVal) : List PyVal := values

/-- `Join`: `__init__(self, separator=u' ')` stores the separator. -/
structure Join where
  separator : String

/-- `Join.__call__`: `self.separator.join(values)` over a sequence of
strings; a non-string element raises, modelled by `Option.none`. -/
def Join.call (j : Join) (values : List PyVal) : Option String :=
  (values.mapM (fun v => match v with
    | PyVal.str s => some s
    | _ => Option.none)).map
    (fun ss => String.intercalate j.separator ss)

/-- A Python `dict` of named parameters, as an association list with
distinct keys looked up front to back. -/
abbrev Ctx := List (String × PyVal)

/-- `dict` key lookup on the association-list model. -/
def ctxGet : Ctx → String → Option PyVal
  | [], _ => Option.none
  | (k, v) :: rest, key => if k = key then some v else ctxGet rest key

/-- The context a pipeline call works under: either a plain `dict` (the
pipeline's own `default_loader_context`), or, when a truthy runtime
`loader_context` was supplied, `MergeDict(loader_context,
default_loader_context)`, which keeps both dicts and resolves lookups in
that order. -/
inductive LoaderCtx where
  | plainDict : Ctx → LoaderCtx
  | merged : Ctx → Ctx → LoaderCtx

/-- Modelled from the spec: `MergeDict` (from `scrapy.utils.datatypes`,
not in src/) resolves a key lookup by "merging (a) a runtime-supplied
context and (b) a processor's own default named parameters, with (a)
taking precedence on key collision". -/
def LoaderCtx.get : LoaderCtx → String → Option PyVal
  | LoaderCtx.plainDict d, k => ctxGet d k
  | LoaderCtx.merged rc d, k =>
    match ctxGet rc k with
    | some v => some v
    | Option.none => ctxGet d k

/-- Key membership in the context a call works under. -/
def LoaderCtx.hasKey : LoaderCtx → String → Bool
  | LoaderCtx.plainDict d, k => (ctxGet d k).isSome
  | LoaderCtx.merged rc d, k => (ctxGet rc k).isSome || (ctxGet d k).isSome

/-- A user-supplied pipeline stage: either a plain unary function, or a
function that also declares the formal parameter `loader_context`. -/
inductive Func where
  | plain : (PyVal → PyVal) → Func
  | ctxAware : (PyVal → LoaderCtx → PyVal) → Func

/-- Modelled from the spec: `wrap_loader_context` (from
`scrapy.contrib.loader.common`, not in src/) returns a unary callable
`g` with `g(value) == f(value, loader_context=ctx)` when `f` declares a
formal parameter named `loader_context`, and `g(value) == f(value)`
otherwise. -/
def wrap_loader_context (f : Func) (ctx : LoaderCtx) : PyVal → PyVal :=
  match f with
  | Func.plain g => g
  | Func.ctxAware g => fun v => g v ctx

/-- The shared context-building step of `Compose.__call__` and
`MapCompose.__call__`: `MergeDict(loader_context, default)` when the
runtime `loader_context` is truthy (not `None` and not the empty dict),
else the default context itself. -/
def buildContext (default : Ctx) (loader_context : Option Ctx) : LoaderCtx :=
  match loader_context with
  | some rc =>
    if rc.isEmpty then LoaderCtx.plainDict default else LoaderCtx.merged rc default
  | Option.none => LoaderCtx.plainDict default

/-- `Compose`: `__init__(self, *functions, **default_loader_context)`
stores the function tuple and the default context. -/
structure Compose where
  functions : List Func
  default_loader_context : Ctx

/-- `self.stop_on_none = default_loader_context.get('stop_on_none', True)`,
computed in `Compose.__init__` from the stored (and unmodified) default
context. -/
def Compose.stop_on_none (c : Compose) : PyVal :=
  (ctxGet c.default_loader_context "stop_on_none").getD (PyVal.bool true)

/-- The context a `Compose` call works under. -/
def Compose.contextOf (c : Compose) (loader_context : Option Ctx) : LoaderCtx :=
  buildContext c.default_loader_context loader_context

/-- The loop of `Compose.__call__`: `for func in wrapped_funcs: if value
is None and self.stop_on_none: break; value = func(value)`; `break`
leaves the loop and the current `value` is returned. -/
def Compose.callLoop (stop : PyVal) : List (PyVal → PyVal) → PyVal → PyVal
  | [], value => value
  | f :: fs, value =>
    if value.isNone && pyTruthy stop then value
    else Compose.callLoop stop fs (f value)

/-- `Compose.__call__(value, loader_context=None)`. -/
def Compose.call (c : Compose) (value : PyVal) (loader_context : Option Ctx) : PyVal :=
  let wrapped := c.functions.map (fun f => wrap_loader_context f (c.contextOf loader_context))
  Compose.callLoop c.stop_on_none wrapped value

/-- Modelled from the spec: `arg_to_iter` (from `scrapy.utils.misc`, not
in src/) coerces a value to an iterable sequence — "a scalar becomes a
single-element sequence, `None`/absent values become an empty sequence,
an existing sequence/iterable passes through as-is". -/
def arg_to_iter : PyVal → List PyVal
  | PyVal.none => []
  | PyVal.list xs => xs
  | v => [v]

/-- One stage of `MapCompose.__call__`: `next_values = []; for v in
values: next_values += arg_to_iter(func(v))`. -/
def mapStage (f : PyVal → PyVal) : List PyVal → List PyVal
  | [] => []
  | v :: vs => arg_to_iter (f v) ++ mapStage f vs

/-- `MapCompose`: `__init__(self, *functions, **default_loader_context)`
stores the function tuple and the default context. -/
structure MapCompose where
  functions : List Func
  default_loader_context : Ctx

/-- The context a `MapCompose` call works under. -/
def MapCompose.contextOf (m : MapCompose) (loader_context : Option Ctx) : LoaderCtx :=
  buildContext m.default_loader_context loader_context

/-- `MapCompose.__call__(value, loader_context=None)`: coerce `value`
with `arg_to_iter`, wrap each function with the built context, then run
the stages in order, each stage flat-mapping the wrapped function over
the working sequence. -/
def MapCompose.call (m : MapCompose) (value : PyVal) (loader_context : Option Ctx) :
    List PyVal :=
  let wrapped := m.functions.map (fun f => wrap_loader_context f (m.contextOf loader_context))
  wrapped.foldl (fun values func => mapStage func values) (arg_to_iter value)

/-- An opaque exception value raised by a user-supplied function. -/
structure PyExc where
  message : String

/-- The loop of `Compose.__call__` when the wrapped functions may raise:
the loop body has no `try`/`except`, so a raise at `value = func(value)`
aborts the loop and surfaces the exception unchanged. -/
def Compose.callLoopE (stop : PyVal) :
    List (PyVal → Except PyExc PyVal) → PyVal → Except PyExc PyVal
  | [], value => Except.ok value
  | f :: fs, value =>
    if value.isNone && pyTruthy stop then Except.ok value
    else
      match f value with
      | Except.error e => Except.error e
      | Except.ok v => Compose.callLoopE stop fs v

/-- One stage of `MapCompose.__call__` when the wrapped function may
raise: the per-element loop has no `try`/`except`, so a raise at
`func(v)` aborts the stage and surfaces the exception unchanged. -/
def mapStageE (f : PyVal → Except PyExc PyVal) : List PyVal → Except PyExc (List PyVal)
  | [] => Except.ok []
  | v :: vs =>
    match f v with
    | Except.error e => Except.error e
    | Except.ok r =>
      match mapStageE f vs with
      | Except.error e => Except.error e
      | Except.ok rest => Except.ok (arg_to_iter r ++ rest)

/-- The stage loop of `MapCompose.__call__` when the wrapped functions
may raise: a stage that raises aborts the loop, the later stages never
run. -/
def MapCompose.runE (funcs : List (PyVal → Except PyExc PyVal)) (values : List PyVal) :
    Except PyExc (List PyVal) :=
  match funcs with
  | [] => Except.ok values
  | f :: fs =>
    match mapStageE f values with
    | Except.error e => Except.error e
    | Except.ok next => MapCompose.runE fs next

/-! Doctests of the source module, checked against the embedding. -/

/-- `Filter()(['A', 0, '', 0.0, None, -1])` yields `('A', 0, 0.0, -1)`. -/
theorem Filter_doctest_default :
    Filter.call Filter.mkDefault
        [PyVal.str "A", PyVal.int 0, PyVal.str "", PyVal.float 0, PyVal.none, PyVal.int (-1)]
      = [PyVal.str "A", PyVal.int 0, PyVal.float 0, PyVal.int (-1)] := rfl

/-- `Filter(None)(['A', 0, '', 0.00, None, -1])` yields `('A', -1)`. -/
theorem Filter_doctest_none :
    Filter.call ⟨Option.none⟩
        [PyVal.str "A", PyVal.int 0, PyVal.str "", PyVal.float 0, PyVal.none, PyVal.int (-1)]
      = [PyVal.str "A", PyVal.int (-1)] := rfl

/-- `Slice()([2, 3, 5, 7])` yields `[2, 3, 5, 7]` and
`Slice(None, 3)([2, 3, 5, 7])` yields `[2, 3, 5]`. -/
theorem Slice_doctest :
    Slice.call ⟨Option.none, Option.none⟩
        [PyVal.int 2, PyVal.int 3, PyVal.int 5, PyVal.int 7]
      = [PyVal.int 2, PyVal.int 3, PyVal.int 5, PyVal.int 7]
    ∧ Slice.call ⟨Option.none, some 3⟩
        [PyVal.int 2, PyVal.int 3, PyVal.int 5, PyVal.int 7]
      = [PyVal.int 2, PyVal.int 3, PyVal.int 5] := ⟨rfl, rfl⟩

/-- `[TakeFirst()(c) for c in ((0,'A'), ('', 0), (None, 'A'))]` yields
`[0, 0, 'A']` and with `TakeFirst(None)` yields `['A', None, 'A']`. -/
theorem TakeFirst_doctest :
    TakeFirst.call TakeFirst.mkDefault [PyVal.int 0, PyVal.str "A"] = PyVal.int 0
    ∧ TakeFirst.call TakeFirst.mkDefault [PyVal.str "", PyVal.int 0] = PyVal.int 0
    ∧ TakeFirst.call TakeFirst.mkDefault [PyVal.none, PyVal.str "A"] = PyVal.str "A"
    ∧ TakeFirst.call (TakeFirst.mkP Option.none) [PyVal.int 0, PyVal.str "A"] = PyVal.str "A"
    ∧ TakeFirst.call (TakeFirst.mkP Option.none) [PyVal.str "", PyVal.int 0] = PyVal.none
    ∧ TakeFirst.call (TakeFirst.mkP Option.none) [PyVal.none, PyVal.str "A"] = PyVal.str "A" :=
  ⟨rfl, rfl, rfl, rfl, rfl, rfl⟩

/-- Claim C1, counterexample: `Filter` constructed with the predicate
argument explicitly set to `None` does NOT return
`('A', 0, '', 0.0, -1)` on `['A', 0, '', 0.0, None, -1]` — Python's
`filter(None, values)` keeps only the truthy elements, so the falsy
`0`, `''` and `0.0` are dropped as well. -/
theorem Filter_none_claim_cex :
    Filter.call ⟨Option.none⟩
        [PyVal.str "A", PyVal.int 0, PyVal.str "", PyVal.float 0, PyVal.none, PyVal.int (-1)]
      ≠ [PyVal.str "A", PyVal.int 0, PyVal.str "", PyVal.float 0, PyVal.int (-1)] := by
  intro h
  have h2 : (Filter.call ⟨Option.none⟩
      [PyVal.str "A", PyVal.int 0, PyVal.str "", PyVal.float 0, PyVal.none,
        PyVal.int (-1)]).length = 2 := rfl
  rw [h] at h2
  simp at h2

/-- Claim C1, amended: `Filter(None)` keeps exactly the truthy elements,
yielding `('A', -1)` on `['A', 0, '', 0.0, None, -1]`; excluding only
`None` is instead the behavior of `Filter(lambda v: v is not None)`,
which yields `('A', 0, '', 0.0, -1)` there, keeping `0`, `''` and
`0.0`. -/
theorem Filter_none_amended :
    Filter.call ⟨Option.none⟩
        [PyVal.str "A", PyVal.int 0, PyVal.str "", PyVal.float 0, PyVal.none, PyVal.int (-1)]
      = [PyVal.str "A", PyVal.int (-1)]
    ∧ Filter.call ⟨some (fun v => PyVal.bool (!v.isNone))⟩
        [PyVal.str "A", PyVal.int 0, PyVal.str "", PyVal.float 0, PyVal.none, PyVal.int (-1)]
      = [PyVal.str "A", PyVal.int 0, PyVal.str "", PyVal.float 0, PyVal.int (-1)] :=
  ⟨rfl, rfl⟩

/-- Claim C2, counterexample: `Slice` is not idempotent for every choice
of bounds: `Slice(1, None)` maps `[10, 20]` to `[20]` and `[20]` to
`[]`, so reapplying it changes the output. -/
theorem Slice_idempotence_cex :
    Slice.call ⟨some 1, Option.none⟩
        (Slice.call ⟨some 1, Option.none⟩ [PyVal.int 10, PyVal.int 20])
      ≠ Slice.call ⟨some 1, Option.none⟩ [PyVal.int 10, PyVal.int 20] := by
  intro h
  have h0 : ([] : List PyVal) = [PyVal.int 20] := h
  exact List.noConfusion h0

/-- Filtering a list twice by the same boolean test equals filtering it
once. -/
theorem filter_idem (q : PyVal → Bool) (s : List PyVal) :
    (s.filter q).filter q = s.filter q :=
  List.filter_eq_self.mpr (fun _ ha => List.of_mem_filter ha)

/-- For a nonnegative or absent upper bound and an absent lower bound,
`pySlice` is a prefix-take. -/
theorem pySlice_take (e : Int) (he : 0 ≤ e) (xs : List PyVal) :
    pySlice Option.none (some e) xs = xs.take (min e.toNat xs.length) := by
  simp [pySlice, sliceIndex, not_lt.mpr he]

/-- Claim C2, amended: `Identity` and `Filter` (with any pure predicate,
stored or selected by `Filter(None)`) are idempotent on every sequence,
and so is `Slice` when its `begin` is absent and its `end` is absent or
a nonnegative index; but `Slice` is not idempotent for arbitrary bounds
(`Slice(1, None)` is a counterexample). -/
theorem processors_idempotence_amended :
    (∀ s, Identity.call (Identity.call s) = Identity.call s)
    ∧ (∀ f s, Filter.call f (Filter.call f s) = Filter.call f s)
    ∧ (∀ xs, Slice.call ⟨Option.none, Option.none⟩
          (Slice.call ⟨Option.none, Option.none⟩ xs)
        = Slice.call ⟨Option.none, Option.none⟩ xs)
    ∧ (∀ e xs, 0 ≤ e →
        Slice.call ⟨Option.none, some e⟩ (Slice.call ⟨Option.none, some e⟩ xs)
          = Slice.call ⟨Option.none, some e⟩ xs) := by
  refine ⟨fun s => rfl, ?_, ?_, ?_⟩
  · intro f s
    match f with
    | ⟨some p⟩ => exact filter_idem (fun v => pyTruthy (p v)) s
    | ⟨Option.none⟩ => exact filter_idem pyTruthy s
  · intro xs
    simp [Slice.call, pySlice]
  · intro e xs he
    simp only [Slice.call, pySlice_take e he]
    rw [List.length_take, List.take_take]
    congr 1
    omega

/-- Claim C2, witness for the amended idempotence at concrete inputs. -/
theorem processors_idempotence_amended_witness :
    Slice.call ⟨Option.none, some 3⟩
        (Slice.call ⟨Option.none, some 3⟩ [PyVal.int 2, PyVal.int 3, PyVal.int 5, PyVal.int 7])
      = Slice.call ⟨Option.none, some 3⟩ [PyVal.int 2, PyVal.int 3, PyVal.int 5, PyVal.int 7] :=
  processors_idempotence_amended.2.2.2 3 [PyVal.int 2, PyVal.int 3, PyVal.int 5, PyVal.int 7]
    (by decide)

/-- With a truthy `stop_on_none`, the `Compose` loop started at `None`
ends at once with `None`. -/
theorem callLoop_none (stop : PyVal) (hs : pyTruthy stop = true)
    (fs : List (PyVal → PyVal)) : Compose.callLoop stop fs PyVal.none = PyVal.none := by
  cases fs with
  | nil => rfl
  | cons f fs => simp [Compose.callLoop, PyVal.isNone, hs]

/-- With a falsy `stop_on_none`, the `Compose` loop applies every
function in order. -/
theorem callLoop_no_stop (stop : PyVal) (hs : pyTruthy stop = false)
    (fs : List (PyVal → PyVal)) (v : PyVal) :
    Compose.callLoop stop fs v = fs.foldl (fun w f => f w) v := by
  induction fs generalizing v with
  | nil => rfl
  | cons f fs ih => simp [Compose.callLoop, hs, ih]

/-- Claim C3: `Compose` short-circuits on `None` exactly when
`stop_on_none` holds.  `stop_on_none` is read from the default context
and defaults to `True`; when it is truthy, a call on `None` returns
`None` whatever the function chain is (no function invoked), and the
loop reaching `None` before any remaining stage stops there; when it is
falsy, every function is invoked in order, so
`Compose(f, g, stop_on_none=False)(None)` returns `g(f(None))`. -/
theorem Compose_stop_on_none_correct :
    (∀ fs d, ctxGet d "stop_on_none" = Option.none →
      (Compose.mk fs d).stop_on_none = PyVal.bool true)
    ∧ (∀ c : Compose, ∀ lc, pyTruthy c.stop_on_none = true →
        c.call PyVal.none lc = PyVal.none)
    ∧ (∀ f g, Compose.call ⟨[Func.plain f, Func.plain g], []⟩ PyVal.none Option.none
        = PyVal.none)
    ∧ (∀ stop fs, pyTruthy stop = true →
        Compose.callLoop stop fs PyVal.none = PyVal.none)
    ∧ (∀ c : Compose, ∀ v lc, pyTruthy c.stop_on_none = false →
        c.call v lc =
          (c.functions.map (fun f => wrap_loader_context f (c.contextOf lc))).foldl
            (fun w f => f w) v)
    ∧ (∀ f g, Compose.call
        ⟨[Func.plain f, Func.plain g], [("stop_on_none", PyVal.bool false)]⟩
          PyVal.none Option.none
        = g (f PyVal.none)) := by
  refine ⟨?_, ?_, ?_, ?_, ?_, ?_⟩
  · intro fs d hd
    simp [Compose.stop_on_none, hd]
  · intro c lc hs
    exact callLoop_none c.stop_on_none hs _
  · intro f g
    exact callLoop_none (Compose.mk [Func.plain f, Func.plain g] []).stop_on_none rfl _
  · intro stop fs hs
    exact callLoop_none stop hs fs
  · intro c v lc hs
    exact callLoop_no_stop c.stop_on_none hs _ v
  · intro f g
    have hs : pyTruthy ((Compose.mk [Func.plain f, Func.plain g]
        [("stop_on_none", PyVal.bool false)]).stop_on_none) = false := by
      simp [Compose.stop_on_none, ctxGet, pyTruthy]
    exact (callLoop_no_stop _ hs _ PyVal.none).trans rfl

/-- Claim C3, witness at concrete inputs. -/
theorem Compose_stop_on_none_correct_witness :
    (Compose.mk [] []).stop_on_none = PyVal.bool true
    ∧ Compose.call ⟨[Func.plain (fun _ => PyVal.int 7)], []⟩ PyVal.none Option.none
        = PyVal.none
    ∧ Compose.callLoop (PyVal.bool true) [fun _ => PyVal.int 7] PyVal.none = PyVal.none
    ∧ Compose.call ⟨[Func.plain (fun _ => PyVal.int 7)],
          [("stop_on_none", PyVal.bool false)]⟩ PyVal.none Option.none
        = ([wrap_loader_context (Func.plain (fun _ => PyVal.int 7))
              (LoaderCtx.plainDict [("stop_on_none", PyVal.bool false)])].foldl
            (fun w f => f w) PyVal.none) :=
  ⟨Compose_stop_on_none_correct.1 [] [] rfl,
   Compose_stop_on_none_correct.2.1 ⟨[Func.plain (fun _ => PyVal.int 7)], []⟩
     Option.none rfl,
   Compose_stop_on_none_correct.2.2.2.1 (PyVal.bool true) [fun _ => PyVal.int 7] rfl,
   Compose_stop_on_none_correct.2.2.2.2.1
     ⟨[Func.plain (fun _ => PyVal.int 7)], [("stop_on_none", PyVal.bool false)]⟩
     PyVal.none Option.none rfl⟩

/-- Claim C4: `MapCompose` first coerces its input to a sequence
(`None` to the empty sequence, a scalar to a one-element sequence, an
existing sequence as-is); each stage applies its function to every
element of the working sequence, coercing each per-element result with
the same rule and concatenating in element order, and hands the result
to the next stage; `MapCompose(expand)([1, 2])` is the concatenation of
the normalized `expand(1)` and `expand(2)`, in that order. -/
theorem MapCompose_flatten_map_correct :
    arg_to_iter PyVal.none = []
    ∧ (∀ v, v.isNone = false → (∀ xs, v ≠ PyVal.list xs) → arg_to_iter v = [v])
    ∧ (∀ xs, arg_to_iter (PyVal.list xs) = xs)
    ∧ (∀ f v vs, mapStage f (v :: vs) = arg_to_iter (f v) ++ mapStage f vs)
    ∧ (∀ f fs d value lc,
        MapCompose.call ⟨f :: fs, d⟩ value lc
          = MapCompose.call ⟨fs, d⟩
              (PyVal.list (mapStage (wrap_loader_context f (buildContext d lc))
                (arg_to_iter value))) lc)
    ∧ (∀ g a b, MapCompose.call ⟨[Func.plain g], []⟩ (PyVal.list [a, b]) Option.none
        = arg_to_iter (g a) ++ arg_to_iter (g b)) := by
  refine ⟨rfl, ?_, fun _ => rfl, fun f v vs => rfl, fun f fs d value lc => rfl, ?_⟩
  · intro v hn hl
    cases v with
    | none => simp [PyVal.isNone] at hn
    | list xs => exact absurd rfl (hl xs)
    | int n => rfl
    | float q => rfl
    | bool b => rfl
    | str s => rfl
  · intro g a b
    simp [MapCompose.call, mapStage, wrap_loader_context]

/-- Claim C4, witness at a concrete scalar input. -/
theorem MapCompose_flatten_map_correct_witness :
    arg_to_iter (PyVal.int 1) = [PyVal.int 1] :=
  MapCompose_flatten_map_correct.2.1 (PyVal.int 1) rfl
    (fun _ h => PyVal.noConfusion h)

/-- `TakeFirst` returns the sentinel `None` on a sequence with no
element passing its test. -/
theorem takeFirst_no_match (t : TakeFirst) (values : List PyVal)
    (h : ∀ v ∈ values, pyTruthy (t.function v) = false) :
    TakeFirst.call t values = PyVal.none := by
  induction values with
  | nil => rfl
  | cons v vs ih =>
    have hv := h v (List.mem_cons_self v vs)
    simp [TakeFirst.call, hv]
    exact ih (fun w hw => h w (List.mem_cons_of_mem v hw))

/-- Claim C5: `TakeFirst` scans in order and returns the first element
whose test is truthy; the default test keeps an element iff it is not
`None` and not the empty string (`(0, 'A') ↦ 0`, `('', 0) ↦ 0`,
`(None, 'A') ↦ 'A'`); an explicit `None` predicate selects element
truthiness; and with no matching element (the empty sequence included)
the call returns the sentinel `None` and never raises. -/
theorem TakeFirst_correct :
    (∀ t : TakeFirst, ∀ v vs, pyTruthy (t.function v) = true →
      TakeFirst.call t (v :: vs) = v)
    ∧ (∀ t : TakeFirst, ∀ v vs, pyTruthy (t.function v) = false →
        TakeFirst.call t (v :: vs) = TakeFirst.call t vs)
    ∧ (∀ v, pyTruthy (default_pred v) = (!v.isNone && !pyEq v (PyVal.str "")))
    ∧ TakeFirst.call TakeFirst.mkDefault [PyVal.int 0, PyVal.str "A"] = PyVal.int 0
    ∧ TakeFirst.call TakeFirst.mkDefault [PyVal.str "", PyVal.int 0] = PyVal.int 0
    ∧ TakeFirst.call TakeFirst.mkDefault [PyVal.none, PyVal.str "A"] = PyVal.str "A"
    ∧ (TakeFirst.mkP Option.none).function = (fun v => PyVal.bool (pyTruthy v))
    ∧ (∀ t : TakeFirst, ∀ values, (∀ v ∈ values, pyTruthy (t.function v) = false) →
        TakeFirst.call t values = PyVal.none)
    ∧ TakeFirst.call TakeFirst.mkDefault [] = PyVal.none := by
  refine ⟨?_, ?_, fun v => rfl, rfl, rfl, rfl, rfl, takeFirst_no_match, rfl⟩
  · intro t v vs hv
    simp [TakeFirst.call, hv]
  · intro t v vs hv
    simp [TakeFirst.call, hv]

/-- Claim C5, witness at concrete inputs. -/
theorem TakeFirst_correct_witness :
    TakeFirst.call TakeFirst.mkDefault [PyVal.int 0, PyVal.str "A"] = PyVal.int 0
    ∧ TakeFirst.call TakeFirst.mkDefault [PyVal.str "", PyVal.int 0]
        = TakeFirst.call TakeFirst.mkDefault [PyVal.int 0]
    ∧ TakeFirst.call TakeFirst.mkDefault [PyVal.str "", PyVal.none] = PyVal.none :=
  ⟨TakeFirst_correct.1 TakeFirst.mkDefault (PyVal.int 0) [PyVal.str "A"] rfl,
   TakeFirst_correct.2.1 TakeFirst.mkDefault (PyVal.str "") [PyVal.int 0] rfl,
   TakeFirst_correct.2.2.2.2.2.2.2.1 TakeFirst.mkDefault [PyVal.str "", PyVal.none]
     (by
       intro v hv
       simp only [List.mem_cons, List.not_mem_nil, or_false] at hv
       rcases hv with rfl | rfl <;> rfl)⟩

/-- Claim C6: with a non-empty runtime context, both `Compose` and
`MapCompose` build the merged context, in which runtime entries
override the pipeline's default entries on key collision; every
context-aware function in the chain is wrapped so as to receive that
merged context, while a plain function is called with the value only. -/
theorem context_merge_precedence_correct :
    (∀ (c : Compose) rc, rc ≠ [] →
      c.contextOf (some rc) = LoaderCtx.merged rc c.default_loader_context)
    ∧ (∀ (m : MapCompose) rc, rc ≠ [] →
        m.contextOf (some rc) = LoaderCtx.merged rc m.default_loader_context)
    ∧ (∀ rc d k v, ctxGet rc k = some v → (LoaderCtx.merged rc d).get k = some v)
    ∧ (∀ rc d k, ctxGet rc k = Option.none → (LoaderCtx.merged rc d).get k = ctxGet d k)
    ∧ (∀ (c : Compose) rc g, rc ≠ [] → Func.ctxAware g ∈ c.functions →
        wrap_loader_context (Func.ctxAware g) (c.contextOf (some rc))
          = fun v => g v (LoaderCtx.merged rc c.default_loader_context))
    ∧ (∀ f ctx, wrap_loader_context (Func.plain f) ctx = f) := by
  have hbuild : ∀ (d : Ctx) (rc : Ctx), rc ≠ [] →
      buildContext d (some rc) = LoaderCtx.merged rc d := by
    intro d rc h
    cases rc with
    | nil => exact absurd rfl h
    | cons p ps => rfl
  refine ⟨?_, ?_, ?_, ?_, ?_, fun f ctx => rfl⟩
  · intro c rc h
    exact hbuild c.default_loader_context rc h
  · intro m rc h
    exact hbuild m.default_loader_context rc h
  · intro rc d k v h
    simp [LoaderCtx.get, h]
  · intro rc d k h
    simp [LoaderCtx.get, h]
  · intro c rc g h _
    rw [Compose.contextOf, hbuild c.default_loader_context rc h]
    rfl

/-- Claim C6, witness: a colliding key resolves to the runtime value. -/
theorem context_merge_precedence_correct_witness :
    (Compose.mk [] [("currency", PyVal.str "USD")]).contextOf
        (some [("currency", PyVal.str "EUR")])
      = LoaderCtx.merged [("currency", PyVal.str "EUR")] [("currency", PyVal.str "USD")]
    ∧ (LoaderCtx.merged [("currency", PyVal.str "EUR")]
          [("currency", PyVal.str "USD")]).get "currency"
        = some (PyVal.str "EUR") :=
  ⟨context_merge_precedence_correct.1 (Compose.mk [] [("currency", PyVal.str "USD")])
     [("currency", PyVal.str "EUR")] (by simp),
   context_merge_precedence_correct.2.2.1 [("currency", PyVal.str "EUR")]
     [("currency", PyVal.str "USD")] "currency" (PyVal.str "EUR") (by simp [ctxGet])⟩

/-- Claim C7: an exception raised by a function in a `Compose` chain, or
by a per-element application in a `MapCompose` stage, propagates
unchanged to the caller — it is neither caught nor transformed, the
remaining elements of the stage are not processed and the remaining
stages of the chain never run. -/
theorem exception_transparency_correct :
    (∀ stop f fs v e, (v.isNone && pyTruthy stop) = false → f v = Except.error e →
      Compose.callLoopE stop (f :: fs) v = Except.error e)
    ∧ (∀ f v vs e, f v = Except.error e → mapStageE f (v :: vs) = Except.error e)
    ∧ (∀ f v r vs e, f v = Except.ok r → mapStageE f vs = Except.error e →
        mapStageE f (v :: vs) = Except.error e)
    ∧ (∀ f fs values e, mapStageE f values = Except.error e →
        MapCompose.runE (f :: fs) values = Except.error e) := by
  refine ⟨?_, ?_, ?_, ?_⟩
  · intro stop f fs v e hv hf
    simp [Compose.callLoopE, hv, hf]
  · intro f v vs e hf
    simp [mapStageE, hf]
  · intro f v r vs e hf hrest
    simp [mapStageE, hf, hrest]
  · intro f fs values e h
    simp [MapCompose.runE, h]

/-- Claim C7, witness: a raising stage aborts both loops with its own
exception. -/
theorem exception_transparency_correct_witness :
    Compose.callLoopE (PyVal.bool true)
        [fun _ => Except.error ⟨"boom"⟩, fun v => Except.ok v] (PyVal.int 1)
      = Except.error ⟨"boom"⟩
    ∧ MapCompose.runE [fun _ => Except.error ⟨"boom"⟩, fun v => Except.ok v]
        [PyVal.int 1]
      = Except.error ⟨"boom"⟩ :=
  ⟨exception_transparency_correct.1 (PyVal.bool true) (fun _ => Except.error ⟨"boom"⟩)
     [fun v => Except.ok v] (PyVal.int 1) ⟨"boom"⟩ rfl rfl,
   exception_transparency_correct.2.2.2 (fun _ => Except.error ⟨"boom"⟩)
     [fun v => Except.ok v] [PyVal.int 1] ⟨"boom"⟩
     (exception_transparency_correct.2.1 (fun _ => Except.error ⟨"boom"⟩)
       (PyVal.int 1) [] ⟨"boom"⟩ rfl)⟩

/-- Claim C8: `Compose.__init__` reads `stop_on_none` from the default
context with `dict.get`, which does not remove the key: a pipeline
built with `stop_on_none=b` keeps the entry in its stored default
context, reads `b` as its stop flag, and the context built for any
call — merged or not — still has the key `stop_on_none`. -/
theorem Compose_keeps_stop_on_none_key :
    ∀ fs d v, ctxGet d "stop_on_none" = some v →
      (Compose.mk fs d).stop_on_none = v
      ∧ (Compose.mk fs d).default_loader_context = d
      ∧ ctxGet (Compose.mk fs d).default_loader_context "stop_on_none" = some v
      ∧ ∀ lc, ((Compose.mk fs d).contextOf lc).hasKey "stop_on_none" = true := by
  intro fs d v h
  refine ⟨by simp [Compose.stop_on_none, h], rfl, h, ?_⟩
  intro lc
  cases lc with
  | none => simp [Compose.contextOf, buildContext, LoaderCtx.hasKey, h]
  | some rc =>
    cases rc with
    | nil => simp [Compose.contextOf, buildContext, LoaderCtx.hasKey, h]
    | cons p ps => simp [Compose.contextOf, buildContext, LoaderCtx.hasKey, h]

/-- Claim C8, witness: `Compose(stop_on_none=False)` keeps the key. -/
theorem Compose_keeps_stop_on_none_key_witness :
    (Compose.mk [] [("stop_on_none", PyVal.bool false)]).stop_on_none = PyVal.bool false
    ∧ (Compose.mk [] [("stop_on_none", PyVal.bool false)]).default_loader_context
        = [("stop_on_none", PyVal.bool false)]
    ∧ ctxGet (Compose.mk [] [("stop_on_none", PyVal.bool false)]).default_loader_context
        "stop_on_none" = some (PyVal.bool false)
    ∧ ∀ lc, ((Compose.mk [] [("stop_on_none", PyVal.bool false)]).contextOf lc).hasKey
        "stop_on_none" = true :=
  Compose_keeps_stop_on_none_key [] [("stop_on_none", PyVal.bool false)]
    (PyVal.bool false) (by simp [ctxGet])

/-- Claim C9: the empty `Compose` pipeline is the identity on every
value, for every default context and runtime context; the empty
`MapCompose` pipeline instead returns the sequence-normalization of its
input — empty for `None`, a one-element sequence for a scalar, the
sequence itself for sequence input. -/
theorem empty_pipeline_behavior :
    (∀ d v lc, Compose.call ⟨[], d⟩ v lc = v)
    ∧ (∀ d value lc, MapCompose.call ⟨[], d⟩ value lc = arg_to_iter value)
    ∧ MapCompose.call ⟨[], []⟩ PyVal.none Option.none = []
    ∧ (∀ n, MapCompose.call ⟨[], []⟩ (PyVal.int n) Option.none = [PyVal.int n])
    ∧ (∀ q, MapCompose.call ⟨[], []⟩ (PyVal.float q) Option.none = [PyVal.float q])
    ∧ (∀ b, MapCompose.call ⟨[], []⟩ (PyVal.bool b) Option.none = [PyVal.bool b])
    ∧ (∀ s, MapCompose.call ⟨[], []⟩ (PyVal.str s) Option.none = [PyVal.str s])
    ∧ (∀ xs, MapCompose.call ⟨[], []⟩ (PyVal.list xs) Option.none = xs) :=
  ⟨fun _ _ _ => rfl, fun _ _ _ => rfl, rfl, fun _ => rfl, fun _ => rfl, fun _ => rfl,
   fun _ => rfl, fun _ => rfl⟩

/-- Claim C10: when the runtime context is `None` or the empty mapping,
both `Compose` and `MapCompose` use the pipeline's own default context
unmerged (the plain-dict shape, not the merged shape), so
runtime-over-default override can only occur for a non-empty runtime
context. -/
theorem empty_runtime_context_no_merge :
    (∀ c : Compose, c.contextOf Option.none
        = LoaderCtx.plainDict c.default_loader_context)
    ∧ (∀ c : Compose, c.contextOf (some [])
        = LoaderCtx.plainDict c.default_loader_context)
    ∧ (∀ m : MapCompose, m.contextOf Option.none
        = LoaderCtx.plainDict m.default_loader_context)
    ∧ (∀ m : MapCompose, m.contextOf (some [])
        = LoaderCtx.plainDict m.default_loader_context) :=
  ⟨fun _ => rfl, fun _ => rfl, fun _ => rfl, fun _ => rfl⟩

end Processor
